import Mathlib

/-!
Verification of the GitLab issue-sync adapter
(`src/app/features/issue/providers/gitlab/gitlab-common-interfaces.service.ts`).

The service is embedded shallowly: every operation becomes a pure Lean
function over explicit data, with the two collaborators (config provider and
API client) passed in as an oracle environment `Env`, and the calls the
service makes to them recorded in an explicit trace (`List Call`).
Timestamps are the millisecond values produced by `Date.getTime()`, modelled
directly as `Nat` (date parsing itself is outside this module).  JavaScript
peculiarities that the file relies on are embedded explicitly: truthiness of
optional strings, `Array.prototype.sort`'s default lexicographic comparator,
numeric coercion of id strings, and the in-place nature of `sort`.
-/

namespace GitlabSync

/-- JS truthiness of a `string | null | undefined` value: `null`, `undefined`
and the empty string are falsy, every other string is truthy. -/
def jsTruthy : Option String → Bool
  | none => false
  | some s => !s.isEmpty

/-- Decimal parse of a character list: `some` of the value when every
character is a digit (the empty list gives `0`, as JS `+""` does), `none`
otherwise. -/
def parseDecCore : List Char → Nat → Option Nat
  | [], acc => some acc
  | c :: cs, acc =>
    if c.isDigit then parseDecCore cs (acc * 10 + (c.toNat - 48)) else none

/-- JS numeric coercion `+x` of a `string | undefined` id, restricted to the
integral values used here: `+undefined` is `NaN` (modelled as `none`),
`+""` is `0`, a decimal digit string parses numerically, and any other
string is `NaN` (signs, blanks, non-decimal and fractional literals are out
of scope: the service only coerces decimal issue-id strings). -/
def jsNum : Option String → Option Int
  | none => none
  | some s => (parseDecCore s.data 0).map Int.ofNat

/-- GitLab comment author (`author.username` is all the service reads). -/
structure GitlabUser where
  username : String
deriving DecidableEq, Repr

/-- GitLab issue comment; `created_at` is its creation time in ms. -/
structure GitlabComment where
  author : GitlabUser
  created_at : Nat
deriving DecidableEq, Repr

/-- GitLab issue: the fields the service reads.  `updated_at` is the update
time in ms; `weight` may be absent. -/
structure GitlabIssue where
  number : Nat
  title : String
  updated_at : Nat
  weight : Option Nat
  comments : List GitlabComment
deriving DecidableEq, Repr

/-- Local task record: the fields the service reads.  `projectId` and
`issueId` are nullable strings, `issueLastUpdated` a nullable ms time. -/
structure Task where
  title : String
  projectId : Option String
  issueId : Option String
  issueLastUpdated : Option Nat
deriving DecidableEq, Repr

/-- Modelled from the spec: the per-project integration config (the
`GitlabCfg` model file is not under `src/`; fields follow spec section 3 and
the service's own usage).  `gitlabBaseUrl`, `project` and `filterUsername`
are nullable strings. -/
structure GitlabCfg where
  isEnabled : Bool
  gitlabBaseUrl : Option String
  project : Option String
  filterUsername : Option String
  isSearchIssuesFromGitlab : Bool
  isAutoPoll : Bool
  isAutoAddToBacklog : Bool
deriving DecidableEq, Repr

/-- Search result item returned by the API client (opaque to the service). -/
structure SearchResultItem where
  title : String
deriving DecidableEq, Repr

/-- A call the service makes to one of its collaborators. -/
inductive Call where
  | getCfg (projectId : String)
  | getById (issueId : Option Int)
  | getByIds (ids : List (Option String))
  | searchInProject (searchTerm : String)
  | getProjectIssues (page : Nat)
deriving DecidableEq, Repr

/-- Oracle environment standing for the two collaborators: the config
provider (`_getCfgOnce$`) and the API client (`_gitlabApiService`). -/
structure Env where
  cfgFor : String → GitlabCfg
  getById : Option Int → GitlabCfg → GitlabIssue
  getByIds : List (Option String) → GitlabCfg → List GitlabIssue
  searchInProject : String → GitlabCfg → Except Unit (List SearchResultItem)
  getProjectIssues : Nat → GitlabCfg → List GitlabIssue

/-- A thrown JS error: either an explicit `throw new Error(msg)` or an
unguarded `TypeError` (property access on `undefined`). -/
inductive JsError where
  | thrown (msg : String)
  | typeError
deriving DecidableEq, Repr

/-! ## Change detection core (lines 97-112 and 161-174 of the source) -/

/-- Comments by others (lines 98-103): if `cfg.filterUsername` is truthy and
has length greater than 1, drop the comments authored by it; otherwise keep
all comments. -/
def commentsByOthers (cfg : GitlabCfg) (issue : GitlabIssue) : List GitlabComment :=
  match cfg.filterUsername with
  | some u =>
    if !u.isEmpty && decide (1 < u.length) then
      issue.comments.filter (fun comment => comment.author.username != u)
    else issue.comments
  | none => issue.comments

/-- The candidate update times (lines 106-109, before sorting): creation
times of comments-by-others followed by the issue's `updated_at`. -/
def updatesOf (cfg : GitlabCfg) (issue : GitlabIssue) : List Nat :=
  (commentsByOthers cfg issue).map (fun comment => comment.created_at) ++ [issue.updated_at]

/-- ECMAScript string `<`: lexicographic comparison of the code-unit
sequences (all characters here are ASCII digits, where code units and
scalar values agree). -/
def jsCharsLt : List Char → List Char → Bool
  | _, [] => false
  | [], _ :: _ => true
  | a :: as, b :: bs =>
    if a.toNat < b.toNat then true
    else if b.toNat < a.toNat then false
    else jsCharsLt as bs

/-- ECMAScript default `Array.prototype.sort` comparator on numbers: the
elements are converted to strings and compared lexicographically.  `a` may
be placed before `b` iff `toString b` is not smaller than `toString a`. -/
def jsStrLe (a b : Nat) : Prop :=
  jsCharsLt (toString b).data (toString a).data = false

instance : DecidableRel jsStrLe := fun a b =>
  inferInstanceAs (Decidable (jsCharsLt (toString b).data (toString a).data = false))

/-- `Array.prototype.sort()` with the default comparator, as a stable sort
under `jsStrLe` (line 109's `.sort()`). -/
def jsSortNat (l : List Nat) : List Nat := List.insertionSort jsStrLe l

/-- `updates[updates.length - 1]` after the default sort (lines 109-110). -/
def lastRemoteUpdate (cfg : GitlabCfg) (issue : GitlabIssue) : Nat :=
  (jsSortNat (updatesOf cfg issue)).getLast?.getD 0

/-- Line 112 / 174: `lastRemoteUpdate > (task.issueLastUpdated || 0)`. -/
def wasUpdated (cfg : GitlabCfg) (issue : GitlabIssue) (task : Task) : Bool :=
  decide (task.issueLastUpdated.getD 0 < lastRemoteUpdate cfg issue)

/-! ## Task-change payloads -/

/-- Line 207-209: `'#' + id + ' ' + title`. -/
def formatIssueTitle (id : Nat) (title : String) : String :=
  "#" ++ toString id ++ " " ++ title

/-- Modelled from the spec: the shared `truncate` helper
(`src/app/util/truncate.ts` is not under `src/`); the spec only says the
snack title is a truncated human-readable string, so truncation to 80
characters is modelled here.  No claim depends on the exact cut-off. -/
def truncate (s : String) : String :=
  if 80 < s.length then s.take 80 ++ "..." else s

/-- The fields of the `Partial<Task>` payload produced by `getAddTaskData`
(lines 190-197), plus the `issueWasUpdated` override. -/
structure TaskChanges where
  title : String
  issuePoints : Option Nat
  issueWasUpdated : Bool
  issueLastUpdated : Nat
deriving DecidableEq, Repr

/-- Lines 190-197: the add-task payload built from an issue. -/
def getAddTaskData (issue : GitlabIssue) : TaskChanges :=
  { title := formatIssueTitle issue.number issue.title
    issuePoints := issue.weight
    issueWasUpdated := false
    issueLastUpdated := issue.updated_at }

/-- Result of a successful single-task refresh that detected a change. -/
structure FreshSingle where
  taskChanges : TaskChanges
  issue : GitlabIssue
  issueTitle : String
deriving DecidableEq, Repr

/-- Lines 114-124: the change-detection tail of `getFreshDataForIssueTask`
once config and issue are in hand. -/
def freshDataCore (cfg : GitlabCfg) (issue : GitlabIssue) (task : Task) :
    Option FreshSingle :=
  if wasUpdated cfg issue task then
    some { taskChanges := { getAddTaskData issue with issueWasUpdated := true }
           issue := issue
           issueTitle := truncate (formatIssueTitle issue.number issue.title) }
  else none

/-- Lines 87-125: `getFreshDataForIssueTask`, with the calls it makes to its
collaborators recorded in the first component. -/
def getFreshDataForIssueTask (task : Task) (env : Env) :
    List Call × Except JsError (Option FreshSingle) :=
  match task.projectId with
  | none => ([], .error (.thrown "No projectId"))
  | some pid =>
    if pid.isEmpty then ([], .error (.thrown "No projectId"))
    else if !jsTruthy task.issueId then ([], .error (.thrown "No issueId"))
    else
      ([Call.getCfg pid, Call.getById (jsNum task.issueId)],
       .ok (freshDataCore (env.cfgFor pid)
              (env.getById (jsNum task.issueId) (env.cfgFor pid)) task))

/-! ## Batched refresh (`getFreshDataForIssueTasks`, lines 127-188) -/

/-- Line 133's comparator `(a, b) => +b.issueId - +a.issueId`, descending by
numeric id.  Per ECMA-262 `SortCompare`, a comparator result of `NaN` is
treated as `+0`, so any `NaN` operand makes the pair compare equal. -/
def taskCmpDesc (a b : Task) : Int :=
  match jsNum b.issueId, jsNum a.issueId with
  | some x, some y => x - y
  | _, _ => 0

/-- The "may come first" relation induced by the descending comparator. -/
def taskLeDesc (a b : Task) : Prop := taskCmpDesc a b ≤ 0

instance : DecidableRel taskLeDesc := fun a b =>
  inferInstanceAs (Decidable (taskCmpDesc a b ≤ 0))

/-- Line 133: `tasks.sort((a, b) => +b.issueId - +a.issueId)`, as the stable
sort under `taskLeDesc` (ECMAScript sort is stable and agrees with any
stable sort for a consistent comparator).  `Array.prototype.sort` mutates
the array, so this is also the caller-visible state of the list after the
call. -/
def jsSortTasksDesc (tasks : List Task) : List Task :=
  List.insertionSort taskLeDesc tasks

/-- Recursion kernel of the chunking loop.  The fuel only bounds the number
of iterations: each loop iteration consumes at least one element, so fuel
equal to the input length (`chunksOf59` below) never runs out, keeping the
recursion structural. -/
def chunksOf59Go : Nat → List α → List (List α)
  | _, [] => []
  | 0, _ :: _ => []
  | fuel + 1, x :: xs => (x :: xs.take 58) :: chunksOf59Go fuel (xs.drop 58)

/-- Lines 141-148: the chunking loop, collecting ids in groups of at most 59
(`paramsCount = 59`). -/
def chunksOf59 (l : List α) : List (List α) := chunksOf59Go l.length l

/-- One entry of the batched result (lines 154-158). -/
structure Entry where
  task : Task
  taskChanges : TaskChanges
  issue : GitlabIssue
deriving DecidableEq, Repr

/-- Lines 176-185: the entry pushed for a task/issue pair when a change is
detected. -/
def entryFor (cfg : GitlabCfg) (issue : GitlabIssue) (task : Task) : Option Entry :=
  if wasUpdated cfg issue task then
    some { task := task
           taskChanges := { getAddTaskData issue with issueWasUpdated := true }
           issue := issue }
  else none

/-- Lines 160-186: the matching loop over `i`, reading `tasks[i]` and
`issues[i]` in step.  When the fetched issues run out before the tasks do,
`issues[i]` is `undefined` and the property access on it throws a
`TypeError`. -/
def matchLoop (cfg : GitlabCfg) : List Task → List GitlabIssue → Except JsError (List Entry)
  | [], _ => .ok []
  | _ :: _, [] => .error .typeError
  | task :: tasks, issue :: issues =>
    match matchLoop cfg tasks issues with
    | .error e => .error e
    | .ok rest =>
      .ok (match entryFor cfg issue task with
           | some e => e :: rest
           | none => rest)

instance {ε α : Type} [DecidableEq ε] [DecidableEq α] : DecidableEq (Except ε α)
  | .ok a, .ok b =>
    if h : a = b then .isTrue (by rw [h]) else .isFalse (by intro hc; cases hc; exact h rfl)
  | .error a, .error b =>
    if h : a = b then .isTrue (by rw [h]) else .isFalse (by intro hc; cases hc; exact h rfl)
  | .ok _, .error _ => .isFalse (by intro hc; cases hc)
  | .error _, .ok _ => .isFalse (by intro hc; cases hc)

/-- Outcome of `getFreshDataForIssueTasks`: the collaborator calls made, the
caller-visible contents of the (in-place sorted) task array afterwards, and
the returned value or thrown error. -/
structure ManyResult where
  calls : List Call
  finalTasks : List Task
  result : Except JsError (List Entry)
deriving DecidableEq, Repr

/-- Lines 127-188: `getFreshDataForIssueTasks`.  The input array is sorted
in place first (line 133); `tasks[0].projectId` on an empty array is a
property access on `undefined` and throws a `TypeError` (an empty array is
itself truthy, so the `tasks &&` guard does not catch it); a falsy first
`projectId` selects `0`, which the `!projectId` guard turns into the thrown
`'No projectId'` error. -/
def getFreshDataForIssueTasks (tasks : List Task) (env : Env) : ManyResult :=
  match jsSortTasksDesc tasks with
  | [] => { calls := [], finalTasks := [], result := .error .typeError }
  | t0 :: rest =>
    match t0.projectId with
    | none =>
      { calls := [], finalTasks := t0 :: rest, result := .error (.thrown "No projectId") }
    | some pid =>
      if pid.isEmpty then
        { calls := [], finalTasks := t0 :: rest, result := .error (.thrown "No projectId") }
      else
        { calls := Call.getCfg pid ::
            (chunksOf59 ((t0 :: rest).map Task.issueId)).map Call.getByIds
          finalTasks := t0 :: rest
          result := matchLoop (env.cfgFor pid) (t0 :: rest)
            (((chunksOf59 ((t0 :: rest).map Task.issueId)).map
              (fun ids => env.getByIds ids (env.cfgFor pid))).flatten) }

/-! ## Issue links (`issueLink$`, lines 46-62) -/

/-- Modelled from the spec: the default host constant `GITLAB_BASE_URL`
(`gitlab.const.ts` is not under `src/`); the spec calls it "the default
host", which for GitLab is its public instance with a trailing slash. -/
def GITLAB_BASE_URL : String := "https://gitlab.com/"

/-- Line 50's regex test `gitlabBaseUrl.match(/.*\/$/)`: with neither the
multiline flag nor a dot-all flag, and `.*` allowed to be empty, the regex
matches exactly when the string's last character is `/`. -/
def endsWithSlash (s : String) : Bool := s.data.getLast? == some '/'

/-- Lines 50-52: the custom base URL with a `/` appended when it does not
already end in one. -/
def fixedUrlOf (base : String) : String :=
  if endsWithSlash base then base else base ++ "/"

/-- JS template-literal interpolation of a `string | null` value. -/
def jsTemplateStr : Option String → String
  | some s => s
  | none => "null"

/-- Line 55-58's `cfg.project?.replace(/%2F/g, '/')`: every occurrence of
the literal `%2F` replaced by `/`, scanning left to right. -/
def decodeSlashChars : List Char → List Char
  | '%' :: '2' :: 'F' :: rest => '/' :: decodeSlashChars rest
  | c :: rest => c :: decodeSlashChars rest
  | [] => []

/-- The default-host branch's project segment: `%2F` decoded, and a `null`
project interpolating (via `undefined` from `?.`) as `"undefined"`. -/
def decodedProject : Option String → String
  | some p => ⟨decodeSlashChars p.data⟩
  | none => "undefined"

/-- Lines 46-62: `issueLink$` (the URL the inner `map` produces from the
config). -/
def issueLink (cfg : GitlabCfg) (issueId : Nat) : String :=
  match cfg.gitlabBaseUrl with
  | some base =>
    if base.isEmpty then
      GITLAB_BASE_URL ++ decodedProject cfg.project ++ "/issues/" ++ toString issueId
    else
      fixedUrlOf base ++ jsTemplateStr cfg.project ++ "/issues/" ++ toString issueId
  | none =>
    GITLAB_BASE_URL ++ decodedProject cfg.project ++ "/issues/" ++ toString issueId

/-! ## Remote search (`searchIssues$`, lines 70-80) -/

/-- The guard on line 73: `gitlabCfg && gitlabCfg.isSearchIssuesFromGitlab`. -/
def searchPermitted : Option GitlabCfg → Bool
  | some cfg => cfg.isSearchIssuesFromGitlab
  | none => false

/-- Lines 70-80: `searchIssues$`.  The result models the emissions of the
returned observable: `of([])` emits one empty list; a successful API search
emits its one result list; on an API error, `catchError(() => [])` replaces
the stream with the observable conversion of the empty array, which
completes without emitting.  The first component records the API call, when
one is made. -/
def searchIssues (searchTerm : String) (cfg : Option GitlabCfg)
    (api : String → Except Unit (List SearchResultItem)) :
    List Call × Except Unit (List (List SearchResultItem)) :=
  match cfg with
  | some c =>
    if c.isSearchIssuesFromGitlab then
      ([Call.searchInProject searchTerm],
       match api searchTerm with
       | .ok items => .ok [items]
       | .error _ => .ok [])
    else ([], .ok [[]])
  | none => ([], .ok [[]])

/-! ## Backlog polling (`getNewIssuesToAddToBacklog`, lines 199-205) -/

/-- Lines 199-205: load the config, fetch page 1 of the project's issues;
`allExistingIssueIds` is accepted but never read. -/
def getNewIssuesToAddToBacklog (projectId : String) (_allExistingIssueIds : List String)
    (env : Env) : List Call × List GitlabIssue :=
  ([Call.getCfg projectId, Call.getProjectIssues 1],
   env.getProjectIssues 1 (env.cfgFor projectId))

/-! ## Concrete fixtures used to instantiate the theorems below -/

/-- Chunk sizes of `chunksOf59Go` as a function of the input length alone
(same structural fuel pattern). -/
def chunkLensGo : Nat → Nat → List Nat
  | _, 0 => []
  | 0, _ + 1 => []
  | fuel + 1, n + 1 => min 59 (n + 1) :: chunkLensGo fuel (n + 1 - 59)

/-- Chunk sizes of `chunksOf59` as a function of the input length alone. -/
def chunkLens (n : Nat) : List Nat := chunkLensGo n n

/-- A config with no base URL, no filter username and search disabled. -/
def cfgPlain : GitlabCfg :=
  { isEnabled := true, gitlabBaseUrl := none, project := some "p"
    filterUsername := none, isSearchIssuesFromGitlab := false
    isAutoPoll := false, isAutoAddToBacklog := false }

/-- A fixed issue with no comments. -/
def issuePlain : GitlabIssue :=
  { number := 7, title := "x", updated_at := 0, weight := none, comments := [] }

/-- A benign oracle environment: every fetched issue is `issuePlain`,
batched fetches return one issue per requested id, search errors. -/
def env0 : Env :=
  { cfgFor := fun _ => cfgPlain
    getById := fun _ _ => issuePlain
    getByIds := fun ids _ => ids.map (fun _ => issuePlain)
    searchInProject := fun _ _ => .error ()
    getProjectIssues := fun _ _ => [issuePlain] }

/-- Issue updated at 9 ms with one later comment (10 ms) by another user:
the numeric maximum of the candidate timestamps is 10, but the default
lexicographic sort orders `"9"` after `"10"`. -/
def issueNine : GitlabIssue :=
  { number := 1, title := "t", updated_at := 9, weight := none
    comments := [{ author := { username := "alice" }, created_at := 10 }] }

/-- Task last synced at 9 ms, pointing at `issueNine`. -/
def taskNine : Task :=
  { title := "", projectId := some "p", issueId := some "1", issueLastUpdated := some 9 }

/-- Environment whose single-issue fetch returns `issueNine`. -/
def envNine : Env := { env0 with getById := fun _ _ => issueNine }

/-- The spec's worked example issue: `#5 Fix bug`, updated at 2000 ms. -/
def issueFixBug : GitlabIssue :=
  { number := 5, title := "Fix bug", updated_at := 2000, weight := some 3, comments := [] }

/-- Task last synced at 1000 ms, pointing at `issueFixBug`. -/
def taskSynced : Task :=
  { title := "", projectId := some "p", issueId := some "5", issueLastUpdated := some 1000 }

/-- The refresh payload produced for `taskSynced` against `issueFixBug`. -/
def freshFixBug : FreshSingle :=
  { taskChanges := { title := "#5 Fix bug", issuePoints := some 3
                     issueWasUpdated := true, issueLastUpdated := 2000 }
    issue := issueFixBug
    issueTitle := "#5 Fix bug" }

/-- Task with no `projectId`. -/
def taskNoProject : Task :=
  { title := "", projectId := none, issueId := some "1", issueLastUpdated := none }

/-- Task with a `projectId` but no `issueId`. -/
def taskNoIssue : Task :=
  { title := "", projectId := some "p", issueId := none, issueLastUpdated := none }

/-- 130 tasks sharing project `"p"`, with distinct numeric ids. -/
def tasks130 : List Task :=
  (List.range 130).map (fun n =>
    { title := "", projectId := some "p", issueId := some (toString (200 - n))
      issueLastUpdated := none })

/-- Config whose filter username is `"bob"` (length 3). -/
def cfgBob : GitlabCfg := { cfgPlain with filterUsername := some "bob" }

/-- Config whose filter username is the single character `"b"`. -/
def cfgSingleB : GitlabCfg := { cfgPlain with filterUsername := some "b" }

/-- A comment authored by `bob`. -/
def comBob : GitlabComment := { author := { username := "bob" }, created_at := 5 }

/-- A comment authored by `alice`. -/
def comAlice : GitlabComment := { author := { username := "alice" }, created_at := 6 }

/-- Issue with one comment by `bob` and one by `alice`. -/
def issueTwoComments : GitlabIssue :=
  { number := 2, title := "t", updated_at := 1, weight := none
    comments := [comBob, comAlice] }

/-- Config with a custom base URL that already ends in two slashes. -/
def cfgDoubleSlash : GitlabCfg := { cfgPlain with gitlabBaseUrl := some "http://h//" }

/-- Config with a custom base URL with no trailing slash. -/
def cfgNoSlashBase : GitlabCfg := { cfgPlain with gitlabBaseUrl := some "http://h" }

/-- Config on the default host with an encoded project path. -/
def cfgEncodedProject : GitlabCfg := { cfgPlain with project := some "a%2Fb" }

/-- Config permitting remote search. -/
def cfgSearchOn : GitlabCfg := { cfgPlain with isSearchIssuesFromGitlab := true }

/-- A search API that always fails. -/
def apiAlwaysErr : String → Except Unit (List SearchResultItem) := fun _ => .error ()

/-- Two tasks whose ids are out of descending order. -/
def taskOne : Task :=
  { title := "a", projectId := some "p", issueId := some "1", issueLastUpdated := none }

/-- Second of the two tasks, with the larger id. -/
def taskTwo : Task :=
  { title := "b", projectId := some "p", issueId := some "2", issueLastUpdated := none }

/-- Spec-side predicate for C6: a string ends in exactly one `/`. -/
def hasExactlyOneTrailingSlash (s : String) : Bool :=
  s.data.getLast? == some '/' && !(s.data.dropLast.getLast? == some '/')

/-! ## Helper lemmas -/

theorem chunksOf59Go_flatten :
    ∀ (fuel : Nat) (l : List α), l.length ≤ fuel → (chunksOf59Go fuel l).flatten = l := by
  intro fuel
  induction fuel with
  | zero =>
    intro l h
    cases l with
    | nil => rfl
    | cons x xs => simp at h
  | succ fuel ih =>
    intro l h
    cases l with
    | nil => rfl
    | cons x xs =>
      rw [chunksOf59Go, List.flatten_cons, ih (xs.drop 58) (by simp only [List.length_drop, List.length_cons] at h ⊢; omega)]
      simp [List.take_append_drop]

theorem chunksOf59_flatten (l : List α) : (chunksOf59 l).flatten = l :=
  chunksOf59Go_flatten l.length l (Nat.le_refl _)

theorem chunksOf59Go_map_length :
    ∀ (fuel : Nat) (l : List α), l.length ≤ fuel →
      (chunksOf59Go fuel l).map List.length = chunkLensGo fuel l.length := by
  intro fuel
  induction fuel with
  | zero =>
    intro l h
    cases l with
    | nil => rfl
    | cons x xs => simp at h
  | succ fuel ih =>
    intro l h
    cases l with
    | nil => rfl
    | cons x xs =>
      rw [chunksOf59Go, List.map_cons,
        ih (xs.drop 58) (by simp only [List.length_drop, List.length_cons] at h ⊢; omega)]
      have h1 : (x :: xs.take 58).length = min 59 (xs.length + 1) := by
        simp [List.length_take]; omega
      have h2 : (xs.drop 58).length = xs.length + 1 - 59 := by
        simp [List.length_drop]
      rw [h1, h2, List.length_cons, chunkLensGo]

theorem chunksOf59_map_length (l : List α) :
    (chunksOf59 l).map List.length = chunkLens l.length :=
  chunksOf59Go_map_length l.length l (Nat.le_refl _)

theorem matchLoop_eq_zip (cfg : GitlabCfg) :
    ∀ (tasks : List Task) (issues : List GitlabIssue), tasks.length ≤ issues.length →
      matchLoop cfg tasks issues =
        .ok ((tasks.zip issues).filterMap (fun p => entryFor cfg p.2 p.1))
  | [], _, _ => rfl
  | _ :: _, [], h => absurd h (by simp)
  | t :: ts, i :: is, h => by
    rw [matchLoop, matchLoop_eq_zip cfg ts is (by simpa using h)]
    simp only [List.zip_cons_cons, List.filterMap_cons]
    cases entryFor cfg i t <;> simp

theorem finalTasks_eq (tasks : List Task) (env : Env) :
    (getFreshDataForIssueTasks tasks env).finalTasks = jsSortTasksDesc tasks := by
  rw [getFreshDataForIssueTasks]
  split
  · simp_all
  · rename_i t0 rest h
    split
    · simp_all
    · split <;> simp_all

/-! ## Claim theorems -/

/-- C1: the claim fails on the code and the code contradicts its own intent:
for candidate timestamps 10 (a comment by another user) and 9 (the issue's
update), the numeric maximum 10 exceeds `issueLastUpdated = 9`, yet the
default `Array.prototype.sort` orders numbers lexicographically, leaving 9
in last position, so `lastRemoteUpdate` is 9 and no change is reported. -/
theorem C1_change_detection_is_not_numeric_max :
    wasUpdated cfgPlain issueNine taskNine = false ∧
    lastRemoteUpdate cfgPlain issueNine = 9 ∧
    (updatesOf cfgPlain issueNine).foldr max 0 = 10 ∧
    taskNine.issueLastUpdated.getD 0 = 9 ∧
    jsSortNat (updatesOf cfgPlain issueNine) = [10, 9] ∧
    (getFreshDataForIssueTask taskNine envNine).2 = .ok none := by
  decide

/-- C2: whenever change detection fires, the produced payload's `title` is
`"#<issue number> <issue title>"`, `issuePoints` is the issue's weight,
`issueLastUpdated` is the issue's own `updated_at` (not the maximum over
comment timestamps), and `issueWasUpdated` is `true`; this holds for both
the single-task payload and the batched one. -/
theorem C2_payload_fields :
    (∀ (cfg : GitlabCfg) (issue : GitlabIssue) (task : Task) (r : FreshSingle),
       freshDataCore cfg issue task = some r →
       r.taskChanges.title = "#" ++ toString issue.number ++ " " ++ issue.title ∧
       r.taskChanges.issuePoints = issue.weight ∧
       r.taskChanges.issueLastUpdated = issue.updated_at ∧
       r.taskChanges.issueWasUpdated = true) ∧
    (∀ (cfg : GitlabCfg) (issue : GitlabIssue) (task : Task) (e : Entry),
       entryFor cfg issue task = some e →
       e.taskChanges.title = "#" ++ toString issue.number ++ " " ++ issue.title ∧
       e.taskChanges.issuePoints = issue.weight ∧
       e.taskChanges.issueLastUpdated = issue.updated_at ∧
       e.taskChanges.issueWasUpdated = true) := by
  constructor
  · intro cfg issue task r h
    unfold freshDataCore at h
    split at h
    · cases h
      simp [getAddTaskData, formatIssueTitle]
    · cases h
  · intro cfg issue task e h
    unfold entryFor at h
    split at h
    · cases h
      simp [getAddTaskData, formatIssueTitle]
    · cases h

/-- C2 witness: the spec's worked example (`#5 Fix bug`, updated at 2000 ms,
task synced at 1000 ms) produces a payload and the properties hold of it. -/
theorem C2_payload_fields_witness :
    freshDataCore cfgPlain issueFixBug taskSynced = some freshFixBug ∧
    (freshFixBug.taskChanges.title =
        "#" ++ toString issueFixBug.number ++ " " ++ issueFixBug.title ∧
     freshFixBug.taskChanges.issuePoints = issueFixBug.weight ∧
     freshFixBug.taskChanges.issueLastUpdated = issueFixBug.updated_at ∧
     freshFixBug.taskChanges.issueWasUpdated = true) :=
  ⟨by decide, C2_payload_fields.1 cfgPlain issueFixBug taskSynced freshFixBug (by decide)⟩

/-- C5: a comment authored by the configured `filterUsername` is excluded
from the comments-by-others set exactly when that username is longer than
one character; with an absent, empty or single-character filter every
comment is kept. -/
theorem C5_filter_username :
    (∀ (u : String) (cfg : GitlabCfg) (issue : GitlabIssue) (c : GitlabComment),
       cfg.filterUsername = some u → c ∈ issue.comments → c.author.username = u →
       (c ∈ commentsByOthers cfg issue ↔ u.length ≤ 1)) ∧
    (∀ (cfg : GitlabCfg) (issue : GitlabIssue),
       (∀ u, cfg.filterUsername = some u → u.length ≤ 1) →
       commentsByOthers cfg issue = issue.comments) := by
  have hco : ∀ (u : String) (cfg : GitlabCfg) (issue : GitlabIssue),
      cfg.filterUsername = some u →
      commentsByOthers cfg issue =
        if (!u.isEmpty && decide (1 < u.length)) = true then
          issue.comments.filter (fun comment => comment.author.username != u)
        else issue.comments := by
    intro u cfg issue hcfg
    unfold commentsByOthers
    rw [hcfg]
  constructor
  · intro u cfg issue c hcfg hmem hauth
    rw [hco u cfg issue hcfg]
    by_cases hlen : 1 < u.length
    · have hne : u.isEmpty = false := by
        cases h : u.isEmpty with
        | false => rfl
        | true =>
          have he := (String.isEmpty_iff u).mp h
          subst he
          simp at hlen
      rw [if_pos (by simp [hne, hlen])]
      constructor
      · intro hc
        have h2 := List.of_mem_filter hc
        simp [hauth] at h2
      · intro hc
        omega
    · rw [if_neg (by simp [hlen])]
      exact ⟨fun _ => by omega, fun _ => hmem⟩
  · intro cfg issue hall
    cases hcfg : cfg.filterUsername with
    | none => unfold commentsByOthers; rw [hcfg]
    | some u =>
      rw [hco u cfg issue hcfg]
      rw [if_neg (by simp; have := hall u hcfg; omega)]

/-- C5 witness: with filter `"bob"` the comment by `bob` is excluded (the
membership is equivalent to the false `"bob".length ≤ 1`), and with the
single-character filter `"b"` every comment is kept. -/
theorem C5_filter_username_witness :
    (comBob ∈ commentsByOthers cfgBob issueTwoComments ↔ "bob".length ≤ 1) ∧
    commentsByOthers cfgSingleB issueTwoComments = issueTwoComments.comments :=
  ⟨C5_filter_username.1 "bob" cfgBob issueTwoComments comBob rfl (by decide) rfl,
   C5_filter_username.2 cfgSingleB issueTwoComments
     (fun u hu => by cases hu; decide)⟩

/-- C9: `getNewIssuesToAddToBacklog` is entirely independent of its
`allExistingIssueIds` argument; it always loads the config and fetches page
1 of the project's issue list. -/
theorem C9_existing_ids_ignored (projectId : String) (ids1 ids2 : List String) (env : Env) :
    getNewIssuesToAddToBacklog projectId ids1 env =
      getNewIssuesToAddToBacklog projectId ids2 env ∧
    getNewIssuesToAddToBacklog projectId ids1 env =
      ([Call.getCfg projectId, Call.getProjectIssues 1],
       env.getProjectIssues 1 (env.cfgFor projectId)) :=
  ⟨rfl, rfl⟩

/-- C10: on an empty task list the sorted array is empty and
`tasks[0].projectId` is a property access on `undefined`: the function
throws an unguarded `TypeError` without any collaborator call, not the
declared `'No projectId'` precondition error. -/
theorem C10_empty_list_type_error (env : Env) :
    getFreshDataForIssueTasks [] env =
      { calls := [], finalTasks := [], result := .error .typeError } ∧
    JsError.typeError ≠ JsError.thrown "No projectId" :=
  ⟨rfl, fun h => by cases h⟩

/-- C4: with a falsy `projectId` both refresh operations throw the
`'No projectId'` precondition error with no collaborator call recorded, and
the single-task refresh additionally throws `'No issueId'` when the task
has no issue id (again before any call). -/
theorem C4_precondition_errors :
    (∀ (task : Task) (env : Env), jsTruthy task.projectId = false →
       getFreshDataForIssueTask task env = ([], .error (.thrown "No projectId"))) ∧
    (∀ (task : Task) (env : Env), jsTruthy task.projectId = true →
       jsTruthy task.issueId = false →
       getFreshDataForIssueTask task env = ([], .error (.thrown "No issueId"))) ∧
    (∀ (tasks : List Task) (env : Env), tasks ≠ [] →
       (∀ t ∈ tasks, jsTruthy t.projectId = false) →
       getFreshDataForIssueTasks tasks env =
         { calls := [], finalTasks := jsSortTasksDesc tasks
           result := .error (.thrown "No projectId") }) := by
  refine ⟨?_, ?_, ?_⟩
  · intro task env h
    unfold getFreshDataForIssueTask
    cases hp : task.projectId with
    | none => rfl
    | some pid =>
      rw [hp] at h
      simp only [jsTruthy, Bool.not_eq_false'] at h
      simp [h]
  · intro task env hp hi
    unfold getFreshDataForIssueTask
    cases hpp : task.projectId with
    | none => rw [hpp] at hp; simp [jsTruthy] at hp
    | some pid =>
      rw [hpp] at hp
      simp only [jsTruthy, Bool.not_eq_true'] at hp
      simp [hp, hi]
  · intro tasks env hne hall
    have hperm : List.Perm (jsSortTasksDesc tasks) tasks := List.perm_insertionSort taskLeDesc tasks
    obtain ⟨t0, rest, hs⟩ : ∃ t0 rest, jsSortTasksDesc tasks = t0 :: rest := by
      cases h : jsSortTasksDesc tasks with
      | nil =>
        rw [h] at hperm
        exact absurd hperm.symm.eq_nil hne
      | cons a l => exact ⟨a, l, rfl⟩
    have ht0 : jsTruthy t0.projectId = false := hall t0 (by
      have hmem : t0 ∈ jsSortTasksDesc tasks := by
        rw [hs]; exact List.mem_cons_self _ _
      exact hperm.mem_iff.mp hmem)
    unfold getFreshDataForIssueTasks
    rw [hs]
    cases hpp : t0.projectId with
    | none => simp [hpp]
    | some pid =>
      rw [hpp] at ht0
      simp only [jsTruthy, Bool.not_eq_false'] at ht0
      simp [hpp, ht0]

/-- C4 witness: a task with no `projectId` and a task with no `issueId`
each fail with the corresponding precondition error and an empty call
trace; likewise for the batched refresh. -/
theorem C4_precondition_errors_witness :
    getFreshDataForIssueTask taskNoProject env0 = ([], .error (.thrown "No projectId")) ∧
    getFreshDataForIssueTask taskNoIssue env0 = ([], .error (.thrown "No issueId")) ∧
    getFreshDataForIssueTasks [taskNoProject] env0 =
      { calls := [], finalTasks := jsSortTasksDesc [taskNoProject]
        result := .error (.thrown "No projectId") } :=
  ⟨C4_precondition_errors.1 taskNoProject env0 (by decide),
   C4_precondition_errors.2.1 taskNoIssue env0 (by decide) (by decide),
   C4_precondition_errors.2.2 [taskNoProject] env0 (by decide) (by decide)⟩

/-- C7: when the config does not permit remote search the operation returns
a single empty result list immediately, without calling the API; when it is
permitted and the API errors, the error is swallowed: the result stream is
not an error and carries no items. -/
theorem C7_search_error_suppressed :
    (∀ (searchTerm : String) (cfg : Option GitlabCfg)
       (api : String → Except Unit (List SearchResultItem)),
       searchPermitted cfg = false →
       searchIssues searchTerm cfg api = ([], .ok [[]])) ∧
    (∀ (searchTerm : String) (cfg : Option GitlabCfg)
       (api : String → Except Unit (List SearchResultItem)),
       searchPermitted cfg = true → api searchTerm = .error () →
       searchIssues searchTerm cfg api = ([Call.searchInProject searchTerm], .ok []) ∧
       ∀ e, (searchIssues searchTerm cfg api).2 ≠ .error e) := by
  constructor
  · intro t cfg api h
    cases cfg with
    | none => rfl
    | some c =>
      simp only [searchPermitted] at h
      simp [searchIssues, h]
  · intro t cfg api hp he
    cases cfg with
    | none => simp [searchPermitted] at hp
    | some c =>
      simp only [searchPermitted] at hp
      refine ⟨by simp [searchIssues, hp, he], fun e => by simp [searchIssues, hp, he]⟩

/-- C7 witness: with search disabled the call trace is empty and one empty
list is emitted; with search enabled and a failing API the call is made,
no error propagates, and nothing is emitted. -/
theorem C7_search_error_suppressed_witness :
    searchIssues "q" (some cfgPlain) apiAlwaysErr = ([], .ok [[]]) ∧
    (searchIssues "q" (some cfgSearchOn) apiAlwaysErr =
       ([Call.searchInProject "q"], .ok []) ∧
     ∀ e, (searchIssues "q" (some cfgSearchOn) apiAlwaysErr).2 ≠ .error e) :=
  ⟨C7_search_error_suppressed.1 "q" (some cfgPlain) apiAlwaysErr (by decide),
   C7_search_error_suppressed.2 "q" (some cfgSearchOn) apiAlwaysErr (by decide) (by decide)⟩

/-- C8 counterexample: `getFreshDataForIssueTasks` does mutate its input:
`Array.prototype.sort` reorders the caller's array in place, so after a call
on `[taskOne, taskTwo]` (ids 1, 2) the caller's list reads
`[taskTwo, taskOne]`, not the original order. -/
theorem C8_counterexample_sort_mutates_input :
    (getFreshDataForIssueTasks [taskOne, taskTwo] env0).finalTasks = [taskTwo, taskOne] ∧
    [taskTwo, taskOne] ≠ [taskOne, taskTwo] := by
  decide

/-- C8 amended: `getFreshDataForIssueTasks` reorders the caller's task list
in place (descending by issue id) but neither adds, removes nor modifies
any task record - the final list is a permutation of the input - and all
proposed changes are only returned in the result. -/
theorem C8_sort_in_place_no_element_mutation (tasks : List Task) (env : Env) :
    (getFreshDataForIssueTasks tasks env).finalTasks.Perm tasks ∧
    (∀ t ∈ (getFreshDataForIssueTasks tasks env).finalTasks, t ∈ tasks) ∧
    (∀ t ∈ tasks, t ∈ (getFreshDataForIssueTasks tasks env).finalTasks) := by
  rw [finalTasks_eq tasks env]
  have hperm : List.Perm (jsSortTasksDesc tasks) tasks := List.perm_insertionSort taskLeDesc tasks
  exact ⟨hperm, fun t ht => hperm.mem_iff.mp ht, fun t ht => hperm.mem_iff.mpr ht⟩

/-- C6 counterexample: with the custom base URL `"http://h//"`, which
already ends in two slashes, the code keeps the base as-is (the regex only
checks that some trailing slash exists), so the produced URL has two
slashes between base and project path - the claim's "exactly one slash"
and "ensures exactly one trailing slash" are false as stated. -/
theorem C6_counterexample_double_slash :
    issueLink cfgDoubleSlash 1 = "http://h//p/issues/1" ∧
    fixedUrlOf "http://h//" = "http://h//" ∧
    hasExactlyOneTrailingSlash (fixedUrlOf "http://h//") = false := by
  decide

/-- C6 amended: with a truthy custom base URL the link is the base with a
slash appended only when one is missing, then `<project>/issues/<id>` with
the project verbatim (no `%2F` decoding); this yields exactly one trailing
slash on the base exactly in the case where the configured base does not
already end with a slash.  With a falsy custom base URL the link is the
default host followed by the `%2F`-decoded project. -/
theorem C6_issueLink_amended (cfg : GitlabCfg) (issueId : Nat) :
    (∀ base, cfg.gitlabBaseUrl = some base → base.isEmpty = false →
       issueLink cfg issueId =
         fixedUrlOf base ++ jsTemplateStr cfg.project ++ "/issues/" ++ toString issueId ∧
       (endsWithSlash base = false →
          hasExactlyOneTrailingSlash (fixedUrlOf base) = true)) ∧
    (jsTruthy cfg.gitlabBaseUrl = false →
       issueLink cfg issueId =
         GITLAB_BASE_URL ++ decodedProject cfg.project ++ "/issues/" ++ toString issueId) := by
  constructor
  · intro base hb hne
    constructor
    · unfold issueLink
      rw [hb]
      simp [hne]
    · intro hslash
      have hfix : fixedUrlOf base = base ++ "/" := by
        unfold fixedUrlOf
        rw [hslash]
        simp
      have hdata : (base ++ "/").data = base.data ++ ['/'] := rfl
      unfold endsWithSlash at hslash
      unfold hasExactlyOneTrailingSlash
      rw [hfix, hdata, List.getLast?_concat, List.dropLast_concat, hslash]
      rfl
  · intro hfalsy
    cases hb : cfg.gitlabBaseUrl with
    | none =>
      unfold issueLink
      rw [hb]
    | some base =>
      rw [hb] at hfalsy
      simp only [jsTruthy, Bool.not_eq_false'] at hfalsy
      unfold issueLink
      rw [hb]
      simp [hfalsy]

/-- C6 witness: the amended statement at a base with no trailing slash
(`"http://h"`), and at the default host with the encoded project `"a%2Fb"`,
whose link decodes to `a/b`. -/
theorem C6_issueLink_amended_witness :
    (issueLink cfgNoSlashBase 1 =
       fixedUrlOf "http://h" ++ jsTemplateStr cfgNoSlashBase.project ++ "/issues/" ++
         toString 1 ∧
     (endsWithSlash "http://h" = false →
        hasExactlyOneTrailingSlash (fixedUrlOf "http://h") = true)) ∧
    issueLink cfgEncodedProject 1 =
      GITLAB_BASE_URL ++ decodedProject cfgEncodedProject.project ++ "/issues/" ++
        toString 1 :=
  ⟨(C6_issueLink_amended cfgNoSlashBase 1).1 "http://h" rfl (by decide),
   (C6_issueLink_amended cfgEncodedProject 1).2 (by decide)⟩

theorem getFreshDataForIssueTasks_eq (tasks : List Task) (env : Env) (pid : String)
    (t0 : Task) (rest : List Task)
    (hs : jsSortTasksDesc tasks = t0 :: rest) (ht0 : t0.projectId = some pid)
    (hpne : pid.isEmpty = false) :
    getFreshDataForIssueTasks tasks env =
      { calls := Call.getCfg pid ::
          (chunksOf59 ((t0 :: rest).map Task.issueId)).map Call.getByIds
        finalTasks := t0 :: rest
        result := matchLoop (env.cfgFor pid) (t0 :: rest)
          (((chunksOf59 ((t0 :: rest).map Task.issueId)).map
             (fun ids => env.getByIds ids (env.cfgFor pid))).flatten) } := by
  unfold getFreshDataForIssueTasks
  rw [hs]
  simp [ht0, hpne]

/-- C3: on any 130 tasks sharing a (non-empty) project id, against an API
client that returns one issue per requested id, the batched refresh makes
exactly the config call followed by three batched id calls whose chunks have
sizes 59, 59 and 12 in that order, and its result pairs the descending-
sorted task at each position with the fetched issue at the same position. -/
theorem C3_batching_and_positional_match (tasks : List Task) (env : Env) (pid : String)
    (hlen : tasks.length = 130)
    (hpid : ∀ t ∈ tasks, t.projectId = some pid)
    (hpne : pid.isEmpty = false)
    (hapi : ∀ ids cfg, (env.getByIds ids cfg).length = ids.length) :
    (chunksOf59 ((jsSortTasksDesc tasks).map Task.issueId)).map List.length =
      [59, 59, 12] ∧
    (getFreshDataForIssueTasks tasks env).calls =
      Call.getCfg pid ::
        (chunksOf59 ((jsSortTasksDesc tasks).map Task.issueId)).map Call.getByIds ∧
    (getFreshDataForIssueTasks tasks env).result =
      .ok (((jsSortTasksDesc tasks).zip
              (((chunksOf59 ((jsSortTasksDesc tasks).map Task.issueId)).map
                 (fun ids => env.getByIds ids (env.cfgFor pid))).flatten)).filterMap
            (fun p => entryFor (env.cfgFor pid) p.2 p.1)) := by
  have hperm : List.Perm (jsSortTasksDesc tasks) tasks :=
    List.perm_insertionSort taskLeDesc tasks
  have hslen : (jsSortTasksDesc tasks).length = 130 := by
    rw [hperm.length_eq, hlen]
  obtain ⟨t0, rest, hs⟩ : ∃ t0 rest, jsSortTasksDesc tasks = t0 :: rest := by
    cases h : jsSortTasksDesc tasks with
    | nil => rw [h] at hslen; simp at hslen
    | cons a l => exact ⟨a, l, rfl⟩
  have ht0 : t0.projectId = some pid := hpid t0 (hperm.mem_iff.mp (by
    rw [hs]; exact List.mem_cons_self _ _))
  have hids : ((jsSortTasksDesc tasks).map Task.issueId).length = 130 := by
    rw [List.length_map, hslen]
  have hchunk : (chunksOf59 ((jsSortTasksDesc tasks).map Task.issueId)).map List.length =
      [59, 59, 12] := by
    rw [chunksOf59_map_length, hids]
    decide
  have hflatlen :
      (((chunksOf59 ((jsSortTasksDesc tasks).map Task.issueId)).map
         (fun ids => env.getByIds ids (env.cfgFor pid))).flatten).length = 130 := by
    rw [List.length_flatten, List.map_map]
    have hcongr :
        ((chunksOf59 ((jsSortTasksDesc tasks).map Task.issueId)).map
          (List.length ∘ fun ids => env.getByIds ids (env.cfgFor pid))) =
        (chunksOf59 ((jsSortTasksDesc tasks).map Task.issueId)).map List.length := by
      exact List.map_congr_left (fun a _ => hapi a _)
    rw [hcongr, hchunk]
    decide
  have heq := getFreshDataForIssueTasks_eq tasks env pid t0 rest hs ht0 hpne
  refine ⟨hchunk, ?_, ?_⟩
  · rw [heq, hs]
  · rw [heq, hs]
    exact matchLoop_eq_zip (env.cfgFor pid) (t0 :: rest) _ (by
      rw [← hs, hflatlen, hs]
      rw [← hs, hslen])

/-- C3 witness: the 130 concrete tasks of `tasks130` (shared project `"p"`,
distinct numeric ids) with the benign oracle `env0` satisfy the batching and
positional-matching conclusions. -/
theorem C3_batching_and_positional_match_witness :
    (chunksOf59 ((jsSortTasksDesc tasks130).map Task.issueId)).map List.length =
      [59, 59, 12] ∧
    (getFreshDataForIssueTasks tasks130 env0).calls =
      Call.getCfg "p" ::
        (chunksOf59 ((jsSortTasksDesc tasks130).map Task.issueId)).map Call.getByIds ∧
    (getFreshDataForIssueTasks tasks130 env0).result =
      .ok (((jsSortTasksDesc tasks130).zip
              (((chunksOf59 ((jsSortTasksDesc tasks130).map Task.issueId)).map
                 (fun ids => env0.getByIds ids (env0.cfgFor "p"))).flatten)).filterMap
            (fun p => entryFor (env0.cfgFor "p") p.2 p.1)) :=
  C3_batching_and_positional_match tasks130 env0 "p"
    (by simp [tasks130])
    (by
      intro t ht
      simp only [tasks130, List.mem_map, List.mem_range] at ht
      obtain ⟨n, -, rfl⟩ := ht
      rfl)
    rfl
    (by intro ids cfg; simp [env0])

end GitlabSync
